import Mathlib

set_option autoImplicit false

/-!
# Verification of the music-agent result-selection and continuation engine

Shallow embedding of `src/app/tools/music_tools.py` (and the static mapping in
`src/app/tools/mood_to_genre.py`).  Python dictionaries coming back from the
upstream JSON API are modelled as a `Track` structure whose fields are
`Option`-valued (a missing dictionary key is `none`); the Python `set` of
excluded ids is a `Finset Int`; the HTTP layer is a parameter
`fetch : Nat → Option (List Track)` mapping a pagination offset to either
`none` (a `requests.RequestException` raised on that call: transport error,
timeout or non-2xx status) or `some page` (the parsed `data` array, possibly
empty).  Numeric parameters (`n`, `page_size`, `start_index`, `max_pages`)
are modelled as naturals, matching their non-negative use in the source.
-/

namespace MusicAgent

/-- A track record from the upstream source (`data` array element).
`id` is the dedup key (`t.get("id")`); `artistName` collapses the two-level
access `track.get("artist", {}).get("name")` (`none` when either the artist
object or its name is absent); `title` and `link` are the other fields the
formatter reads. -/
structure Track where
  id : Option Int
  title : Option String
  artistName : Option String
  link : Option String
deriving Repr, DecidableEq

/-- The Python `set` of already-used track ids. -/
abbrev IdSet := Finset Int

/-- Loop of `_pick_unique_tracks` (music_tools.py lines 13-24): walk the
candidates, skip a track whose `id` is `None`, skip a track whose id is in
the exclusion set, otherwise append it, add its id to the set, and stop as
soon as the picked list has length `n`.  `picked` is the accumulator
(`picked` in the source); the updated exclusion set is returned alongside
the picked tracks since the Python code mutates it in place. -/
def pickGo (n : Nat) : List Track → IdSet → List Track → List Track × IdSet
  | [], ex, picked => (picked, ex)
  | t :: ts, ex, picked =>
    match t.id with
    | none => pickGo n ts ex picked
    | some tid =>
      if tid ∈ ex then pickGo n ts ex picked
      else
        let picked2 := picked ++ [t]
        let ex2 := insert tid ex
        if picked2.length = n then (picked2, ex2) else pickGo n ts ex2 picked2

/-- Embedding of the filter entry point (music_tools.py lines 8-24, the
source names it with a leading underscore).
Returns the picked tracks together with the exclusion set as it stands when
the function returns (the source mutates `exclude_ids` in place). -/
def pick_unique_tracks (tracks : List Track) (exclude_ids : IdSet) (n : Nat) :
    List Track × IdSet :=
  pickGo n tracks exclude_ids []

/-! ## Response formatter (music_tools.py lines 271-309) -/

/-- The fixed sentence returned for an empty track list (line 277). -/
def noSongsMessage : String :=
  "<p>Sorry, I couldn\x27t find any songs for your request.</p>"

/-- The table opening written before the rows (lines 279-290). -/
def tableOpening : String :=
  "\n<p>Here are some songs for you:</p>\n<table border=\"1\" cellpadding=\"5\" cellspacing=\"0\" style=\"border-collapse: collapse;\">\n    <thead>\n        <tr>\n            <th>Title</th>\n            <th>Artist</th>\n            <th>Link</th>\n        </tr>\n    </thead>\n    <tbody>\n"

/-- One table row (lines 292-303): `track.get("title", "Unknown Title")`,
`track.get("artist", {}).get("name", "Unknown Artist")`,
`track.get("link", "#")` interpolated into the row template. -/
def trackRowHtml (track : Track) : String :=
  let title := track.title.getD "Unknown Title"
  let artist := track.artistName.getD "Unknown Artist"
  let link := track.link.getD "#"
  "\n        <tr>\n            <td>" ++ title ++ "</td>\n            <td>" ++
    artist ++ "</td>\n            <td><a href=\"" ++ link ++
    "\" target=\"_blank\" rel=\"noopener noreferrer\">Listen</a></td>\n        </tr>\n"

/-- The table closing appended after the rows (lines 305-308). -/
def tableClosing : String := "\n    </tbody>\n</table>\n"

/-- Embedding of the formatter (music_tools.py lines 271-309): the
fixed sentence on an empty list, otherwise the opening, one row appended per
track in order (the `response_text +=` loop), and the closing. -/
def format_tracks_response (tracks : List Track) : String :=
  if tracks = [] then noSongsMessage
  else (tracks.foldl (fun acc t => acc ++ trackRowHtml t) tableOpening) ++ tableClosing

/-! ## Paginated search driver (music_tools.py lines 27-93) -/

/-- Instrumented state of one run of the pagination loop of
`search_music_api`: the `selected` list, the internal exclusion set
`exclude_ids`, the loop variable `index`, plus two pieces of verification
instrumentation that the source does not store in a variable but that the
claims quantify over: `pagesFetched` counts the upstream page requests that
completed without raising, and `failed` records whether a
`requests.RequestException` was raised (and caught). -/
structure RunResult where
  selected : List Track
  excludeIds : IdSet
  index : Nat
  pagesFetched : Nat
  failed : Bool

/-- The `for _ in range(max_pages)` loop of `search_music_api` (lines
49-70), by recursion on the remaining page budget.  Each iteration fetches
the page at `index`; a transport failure ends the run with `failed := true`
(the `except requests.RequestException` handler); an empty `data` array
breaks out of the loop; otherwise the page goes through the dedup filter
with `need = n - len(selected)`, the loop breaks if `len(selected) >= n`,
and otherwise `index += page_size` before the next iteration. -/
def driverLoop (fetch : Nat → Option (List Track)) (n pageSize : Nat) :
    Nat → List Track → IdSet → Nat → Nat → RunResult
  | 0, sel, ex, idx, pf => ⟨sel, ex, idx, pf, false⟩
  | budget + 1, sel, ex, idx, pf =>
    match fetch idx with
    | none => ⟨sel, ex, idx, pf, true⟩
    | some tracks =>
      if tracks = [] then ⟨sel, ex, idx, pf + 1, false⟩
      else
        let need := n - sel.length
        let pr := pick_unique_tracks tracks ex need
        let sel2 := sel ++ pr.1
        if n ≤ sel2.length then ⟨sel2, pr.2, idx, pf + 1, false⟩
        else driverLoop fetch n pageSize budget sel2 pr.2 (idx + pageSize) (pf + 1)

/-- The whole pagination run of `search_music_api`: line 44 copies the
callers list into a fresh set (`set(exclude_track_ids or [])`), lines 45-46
initialise `selected = []` and `index = start_index`, then the loop runs. -/
def searchRun (fetch : Nat → Option (List Track)) (exclude_track_ids : List Int)
    (n pageSize start_index max_pages : Nat) : RunResult :=
  driverLoop fetch n pageSize max_pages [] exclude_track_ids.toFinset start_index 0

/-- The dictionary returned by `search_music_api`: either the error shape
(`status` + `error_message` only, lines 72-82) or the success shape with
`tracks`, `selected_track_ids`, `query`, `next_index` and `response_text`
(lines 86-93). -/
inductive SearchOutcome where
  | error (error_message : String)
  | success (tracks : List Track) (selected_track_ids : List Int)
      (query : String) (next_index : Nat) (response_text : String)
deriving Repr, DecidableEq

/-- Test for status error on the returned dictionary. -/
def SearchOutcome.isError : SearchOutcome → Bool
  | .error _ => true
  | .success _ _ _ _ _ => false

/-- The Python check `result.get("status") == "success" and result.get("tracks")`
used by the mood fallback (line 224): success status and a truthy (non-empty)
`tracks` list. -/
def SearchOutcome.successWithTracks : SearchOutcome → Bool
  | .error _ => false
  | .success tracks _ _ _ _ => !tracks.isEmpty

/-- Field accessor for the continuation offset when present. -/
def SearchOutcome.nextIndexOf : SearchOutcome → Option Nat
  | .error _ => none
  | .success _ _ _ ni _ => some ni

/-- Error message of the `except requests.RequestException` branch (line 75). -/
def requestErrorMessage : String :=
  "Sorry, I couldn\x27t process your request right now. Please try again later."

/-- Error message of the `if not selected` branch (line 81). -/
def noNewSongsMessage : String :=
  "Sorry, no new songs found matching your search (after filtering repeats)."

/-- Embedding of the driver entry point (music_tools.py lines 27-93).  After the loop: a caught
transport failure returns the fixed error (lines 72-76); an empty `selected`
returns the no-results error (lines 78-82); otherwise the success dictionary
is built with `selected_track_ids = [t.get("id") for t in selected if
t.get("id") is not None]` and `next_index = index + page_size` (lines 84-93). -/
def search_music_api (fetch : Nat → Option (List Track)) (query : String)
    (exclude_track_ids : List Int) (n pageSize start_index max_pages : Nat) :
    SearchOutcome :=
  let r := searchRun fetch exclude_track_ids n pageSize start_index max_pages
  if r.failed then .error requestErrorMessage
  else if r.selected = [] then .error noNewSongsMessage
  else .success r.selected (r.selected.filterMap Track.id) query
    (r.index + pageSize) (format_tracks_response r.selected)

/-- State-passing embedding of one call to `search_music_api` as seen by the
caller of its `exclude_track_ids` argument: the pair of the returned
dictionary and the contents of the callers list object after the call.  The
source reads the list exactly once, at line 44, where it is copied into the
fresh set `exclude_ids`; no statement writes to the list, so the post-call
contents are the argument unchanged. -/
def search_music_api_call (fetch : Nat → Option (List Track)) (query : String)
    (exclude_track_ids : List Int) (n pageSize start_index max_pages : Nat) :
    SearchOutcome × List Int :=
  (search_music_api fetch query exclude_track_ids n pageSize start_index max_pages,
   exclude_track_ids)

/-! ## Intent-specific wrappers (music_tools.py lines 96-268) and the static
mood mapping (mood_to_genre.py) -/

/-- Result of a wrapper tool: the `search_music_api` dictionary with the
`result["context"] = {"type": ..., "value": ...}` entry the wrappers attach
(attached to error dictionaries too, since the source assigns it
unconditionally on the dictionary it is about to return). -/
structure ToolResult where
  outcome : SearchOutcome
  context : Option (String × String)
deriving Repr, DecidableEq

/-- Python `s.strip()`: drop leading and trailing whitespace characters. -/
def pyStrip (l : List Char) : List Char :=
  ((l.dropWhile Char.isWhitespace).reverse.dropWhile Char.isWhitespace).reverse

/-- Python `s.strip().lower()`, the mood normalisation `mood.strip().lower()`
used at lines 183 and 213 (lower-casing modelled on ASCII letters, which
covers every key of the mapping). -/
def stripLower (s : String) : String :=
  String.mk ((pyStrip s.toList).map Char.toLower)

/-- The static mapping (mood_to_genre.py lines 2-72), as an association list in
source order. -/
def MOOD_TO_GENRE : List (String × String) :=
  [("happy", "pop"), ("excited", "pop"), ("feeling great", "pop"),
   ("positive", "pop"), ("joyful", "pop"), ("in a good mood", "pop"),
   ("cheerful", "pop"),
   ("sad", "blues"), ("feeling down", "blues"), ("blue", "blues"),
   ("heartbroken", "blues"), ("lonely", "blues"), ("depressed", "blues"),
   ("melancholy", "blues"),
   ("romantic", "r&b"), ("in love", "r&b"), ("thinking about someone", "r&b"),
   ("longing", "r&b"), ("crush", "r&b"), ("passionate", "r&b"),
   ("relaxed", "jazz"), ("calm", "jazz"), ("peaceful", "jazz"),
   ("easygoing", "jazz"), ("laid back", "jazz"), ("need to unwind", "jazz"),
   ("spiritual", "religious"), ("uplifted", "religious"),
   ("soulful", "religious"), ("prayerful", "religious"),
   ("looking for meaning", "religious"),
   ("dramatic", "classical"), ("emotional", "classical"),
   ("powerful", "classical"), ("inspired", "classical"), ("epic", "classical"),
   ("energetic", "rock"), ("working out", "rock"), ("need motivation", "rock"),
   ("pumped", "rock"), ("ready to move", "rock"),
   ("angry", "metal"), ("furious", "metal"), ("mad", "metal"),
   ("frustrated", "metal"), ("tense", "metal"),
   ("chill", "lo-fi"), ("chill vibes", "lo-fi"), ("laid-back", "lo-fi"),
   ("mellow", "lo-fi"), ("relaxing", "lo-fi"), ("breezy", "lo-fi")]

/-- Dictionary lookup on the mapping, as done at line 214. -/
def moodToGenre (mood : String) : Option String :=
  MOOD_TO_GENRE.lookup mood

/-- Embedding of the genre wrapper (lines 139-164): genre-field-biased query, context
`{"type": "genre", "value": genre}`.  The wrappers call `search_music_api`
without `max_pages`, so the default budget 5 applies. -/
def search_by_genre (fetch : Nat → Option (List Track)) (genre : String)
    (exclude_track_ids : List Int) (n pageSize start_index : Nat) : ToolResult :=
  { outcome := search_music_api fetch ("genre:\"" ++ genre ++ "\"")
      exclude_track_ids n pageSize start_index 5,
    context := some ("genre", genre) }

/-- Embedding of the mood wrapper (lines 167-192): normalises its argument, passes the
normalised mood as the free-text query, context
`{"type": "mood", "value": mood_normalized}`. -/
def search_by_mood (fetch : Nat → Option (List Track)) (mood : String)
    (exclude_track_ids : List Int) (n pageSize start_index : Nat) : ToolResult :=
  let mood_normalized := stripLower mood
  { outcome := search_music_api fetch mood_normalized
      exclude_track_ids n pageSize start_index 5,
    context := some ("mood", mood_normalized) }

/-- Embedding of the fallback wrapper (lines 195-233): normalise the
mood, look it up in `MOOD_TO_GENRE`; on a hit run the genre search and
return its result if it has `status == "success"` and a truthy `tracks`
list; in every other case run `search_by_mood` on the normalised mood. -/
def search_by_mood_with_genre_fallback (fetch : Nat → Option (List Track))
    (mood : String) (exclude_track_ids : List Int)
    (n pageSize start_index : Nat) : ToolResult :=
  let mood_normalized := stripLower mood
  match moodToGenre mood_normalized with
  | some genre =>
    let genre_result := search_by_genre fetch genre exclude_track_ids n pageSize start_index
    if genre_result.outcome.successWithTracks then genre_result
    else search_by_mood fetch mood_normalized exclude_track_ids n pageSize start_index
  | none => search_by_mood fetch mood_normalized exclude_track_ids n pageSize start_index

/-- One element of the artist-resolution response `data` array
(`/search/artist`); only its `name` field is read (`data["data"][0].get("name")`). -/
structure ArtistRec where
  name : Option String
deriving Repr, DecidableEq

/-- Error message of the artist branch `except requests.RequestException`
(line 136). -/
def artistNetworkErrorMessage : String := "Network or API error occurred."

/-- The not-found message of line 132: the f-string interpolating the
original input between single quotes. -/
def artistNotFoundMessage (artist_name : String) : String :=
  "Sorry, I couldn\x27t find an artist matching \x27" ++ artist_name ++ "\x27."

/-- The Python f-string rendering of `corrected_name`
(the f-string building the artist query renders the Python value None as
the four-letter string). -/
def renderPyOptStr : Option String → String
  | some s => s
  | none => "None"

/-- Embedding of the artist wrapper (lines 96-136).  Here resolveResp embeds the one call to
the artist-resolution endpoint: `none` for a raised `RequestException`,
`some data` for that response `data` array.  On a non-empty array the top
top-match name becomes the query `artist:"<corrected_name>"` and the context
value; on an empty array the error names the original input; the exception
handler returns the fixed network-error dictionary. -/
def search_by_artist (resolveResp : Option (List ArtistRec))
    (fetch : Nat → Option (List Track)) (artist_name : String)
    (exclude_track_ids : List Int) (n pageSize start_index : Nat) : ToolResult :=
  match resolveResp with
  | none => { outcome := .error artistNetworkErrorMessage, context := none }
  | some data =>
    match data with
    | [] => { outcome := .error (artistNotFoundMessage artist_name), context := none }
    | top :: _ =>
      let corrected_name := renderPyOptStr top.name
      { outcome := search_music_api fetch ("artist:\"" ++ corrected_name ++ "\"")
          exclude_track_ids n pageSize start_index 5,
        context := some ("artist", corrected_name) }

/-- Embedding of the track-title wrapper (lines 236-268): title-field-biased query,
context `{"type": "track", "value": title_normalized}`. -/
def search_by_track (fetch : Nat → Option (List Track)) (track_title : String)
    (exclude_track_ids : List Int) (n pageSize start_index : Nat) : ToolResult :=
  let title_normalized := String.mk (pyStrip track_title.toList)
  { outcome := search_music_api fetch ("track:\"" ++ title_normalized ++ "\"")
      exclude_track_ids n pageSize start_index 5,
    context := some ("track", title_normalized) }

/-! ## Concrete fixtures used by witnesses and counterexamples -/

/-- A track with id 1. -/
def trk1 : Track := ⟨some 1, some "Song One", some "Artist One", some "https://x/1"⟩

/-- A track with id 2. -/
def trk2 : Track := ⟨some 2, some "Song Two", some "Artist Two", some "https://x/2"⟩

/-- A track with every field absent. -/
def trkBare : Track := ⟨none, none, none, none⟩

/-- Upstream with one track on the first page and nothing afterwards. -/
def fetchOne : Nat → Option (List Track) :=
  fun i => if i = 0 then some [trk1] else some []

/-- Upstream whose every request raises. -/
def fetchDown : Nat → Option (List Track) :=
  fun _ => none

/-- Upstream that always answers with an empty `data` array. -/
def fetchEmpty : Nat → Option (List Track) :=
  fun _ => some []

/-- Upstream with one fresh track per page: `trk1` at offset 0, `trk2` at
every later offset. -/
def fetchPerPage : Nat → Option (List Track) :=
  fun i => if i = 0 then some [trk1] else some [trk2]

/-! ## Lemmas about the formatter -/

theorem join_cons_eq (s : String) (ss : List String) :
    String.join (s :: ss) = s ++ String.join ss := by
  rw [String.join_eq, String.join_eq]
  cases s with
  | mk d =>
    simp only [List.map_cons, List.flatten_cons]
    rfl

theorem foldl_append_rows (f : Track → String) :
    ∀ (l : List Track) (a : String),
      l.foldl (fun acc t => acc ++ f t) a = a ++ String.join (l.map f)
  | [], a => by simp [String.join_eq]
  | t :: ts, a => by
    rw [List.foldl_cons, foldl_append_rows f ts (a ++ f t), List.map_cons,
      join_cons_eq, String.append_assoc]

/-- C8: the response formatter is a total function (hence it cannot raise and
has no side effects or network access in the embedding): on `[]` it returns
exactly the fixed no-songs sentence; on a non-empty list it returns the table
opening, one `trackRowHtml` row per track in order, and the closing; and a
missing title, artist name, or link renders identically to the placeholder
"Unknown Title", "Unknown Artist", or "#" respectively. -/
theorem formatter_totality_and_placeholders :
    (format_tracks_response [] = noSongsMessage) ∧
    (∀ t ts, format_tracks_response (t :: ts) =
        tableOpening ++ String.join ((t :: ts).map trackRowHtml) ++ tableClosing) ∧
    (∀ i a l, trackRowHtml ⟨i, none, a, l⟩ = trackRowHtml ⟨i, some "Unknown Title", a, l⟩) ∧
    (∀ i t l, trackRowHtml ⟨i, t, none, l⟩ = trackRowHtml ⟨i, t, some "Unknown Artist", l⟩) ∧
    (∀ i t a, trackRowHtml ⟨i, t, a, none⟩ = trackRowHtml ⟨i, t, a, some "#"⟩) := by
  refine ⟨rfl, ?_, fun i a l => rfl, fun i t l => rfl, fun i t a => rfl⟩
  intro t ts
  simp only [format_tracks_response, if_neg (List.cons_ne_nil t ts)]
  rw [foldl_append_rows]

/-! ## Driver outcome shape: C5, C10, C2 (C3 follows the loop invariants) -/

/-- C5: a transport failure at any page attempt makes `search_music_api`
return the fixed error dictionary (status and message only, by the shape of
`SearchOutcome.error`), so tracks collected from earlier pages are discarded
and no exception escapes. -/
theorem driver_transport_failure_short_circuits
    (fetch : Nat → Option (List Track)) (q : String) (l : List Int) (n ps st mp : Nat)
    (hf : (searchRun fetch l n ps st mp).failed = true) :
    search_music_api fetch q l n ps st mp = .error requestErrorMessage := by
  simp [search_music_api, hf]

/-- Witness for C5: every request raises. -/
theorem driver_transport_failure_short_circuits_w :
    search_music_api fetchDown "q" [] 5 50 0 5 = .error requestErrorMessage :=
  driver_transport_failure_short_circuits fetchDown "q" [] 5 50 0 5 rfl

/-- C10: the callers `exclude_track_ids` list is returned unchanged by the
call (the source reads it once, copying it into a fresh set), and the
outcome depends on the list only through the set of its elements, i.e. all
exclusion bookkeeping happens on the internal set. -/
theorem exclude_list_unmutated_and_internal
    (fetch : Nat → Option (List Track)) (q : String) (l : List Int) (n ps st mp : Nat) :
    (search_music_api_call fetch q l n ps st mp).2 = l ∧
    (∀ l2, l2.toFinset = l.toFinset →
      (search_music_api_call fetch q l2 n ps st mp).1 =
        (search_music_api_call fetch q l n ps st mp).1) := by
  refine ⟨rfl, fun l2 h => ?_⟩
  simp only [search_music_api_call, search_music_api, searchRun, h]

/-- Witness for C10: two lists with the same elements in different order and
multiplicity produce identical outcomes, and the argument list survives. -/
theorem exclude_list_unmutated_and_internal_w :
    (search_music_api_call fetchOne "q" [1, 2, 2] 5 50 0 5).2 = [1, 2, 2] ∧
    (search_music_api_call fetchOne "q" [2, 1, 1] 5 50 0 5).1 =
      (search_music_api_call fetchOne "q" [1, 2, 2] 5 50 0 5).1 :=
  ⟨(exclude_list_unmutated_and_internal fetchOne "q" [1, 2, 2] 5 50 0 5).1,
   (exclude_list_unmutated_and_internal fetchOne "q" [1, 2, 2] 5 50 0 5).2 [2, 1, 1] (by decide)⟩

/-- C2 (code bug): with `n = 2`, `page_size = 50`, `start_index = 0`,
`max_pages = 1` and a fresh track on every page, the run fetches exactly one
page (at offset 0) yet the success dictionary carries `next_index = 100`:
the loop increments `index` before discovering the budget is exhausted, and
line 91 adds another `page_size` on top, so the page at offset 50 — never
fetched — is skipped by the follow-up call. -/
theorem next_index_skips_page_on_budget_exhaustion :
    (searchRun fetchPerPage [] 2 50 0 1).pagesFetched = 1 ∧
    (search_music_api fetchPerPage "q" [] 2 50 0 1).nextIndexOf = some 100 ∧
    0 + 50 * 1 ≠ 100 := by
  refine ⟨rfl, rfl, by decide⟩

/-! ## Invariants of the dedup filter -/

theorem pickGo_invariant (n : Nat) :
    ∀ (ts : List Track) (ex : IdSet) (picked : List Track),
      (∀ t ∈ picked, ∃ i, t.id = some i ∧ i ∈ ex) →
      ((picked.filterMap Track.id).Nodup) →
      (∀ t ∈ (pickGo n ts ex picked).1, ∃ i, t.id = some i ∧ i ∈ (pickGo n ts ex picked).2) ∧
      ((pickGo n ts ex picked).1.filterMap Track.id).Nodup ∧
      ex ⊆ (pickGo n ts ex picked).2 ∧
      (∃ newly, (pickGo n ts ex picked).1 = picked ++ newly ∧ newly.Sublist ts ∧
        ∀ t ∈ newly, ∀ i, t.id = some i → i ∉ ex) ∧
      (picked.length < n → (pickGo n ts ex picked).1.length ≤ n) ∧
      picked.length ≤ (pickGo n ts ex picked).1.length := by
  intro ts
  induction ts with
  | nil =>
    intro ex picked h1 h2
    simp only [pickGo]
    exact ⟨h1, h2, Finset.Subset.refl ex,
      ⟨[], (List.append_nil picked).symm, List.nil_sublist _, by simp⟩,
      fun h => Nat.le_of_lt h, Nat.le.refl⟩
  | cons t ts ih =>
    intro ex picked h1 h2
    cases hid : t.id with
    | none =>
      simp only [pickGo, hid]
      obtain ⟨m1, m2, m3, ⟨newly, hn1, hn2, hn3⟩, m5, m6⟩ := ih ex picked h1 h2
      exact ⟨m1, m2, m3, ⟨newly, hn1, hn2.cons t, hn3⟩, m5, m6⟩
    | some tid =>
      by_cases hmem : tid ∈ ex
      · simp only [pickGo, hid, if_pos hmem]
        obtain ⟨m1, m2, m3, ⟨newly, hn1, hn2, hn3⟩, m5, m6⟩ := ih ex picked h1 h2
        exact ⟨m1, m2, m3, ⟨newly, hn1, hn2.cons t, hn3⟩, m5, m6⟩
      · have h1' : ∀ u ∈ picked ++ [t], ∃ i, u.id = some i ∧ i ∈ insert tid ex := by
          intro u hu
          rcases List.mem_append.mp hu with hu | hu
          · obtain ⟨i, hi1, hi2⟩ := h1 u hu
            exact ⟨i, hi1, Finset.mem_insert_of_mem hi2⟩
          · rw [List.mem_singleton.mp hu]
            exact ⟨tid, hid, Finset.mem_insert_self _ _⟩
        have hsingle : List.filterMap Track.id [t] = [tid] := by
          simp [List.filterMap_cons, hid]
        have h2' : ((picked ++ [t]).filterMap Track.id).Nodup := by
          rw [List.filterMap_append, hsingle]
          refine List.Nodup.append h2 (List.nodup_singleton tid) ?_
          intro a ha hb
          rw [List.mem_singleton.mp hb] at ha
          obtain ⟨u, hu, hu2⟩ := List.mem_filterMap.mp ha
          obtain ⟨i, hi1, hi2⟩ := h1 u hu
          rw [hi1] at hu2
          exact hmem (Option.some.inj hu2 ▸ hi2)
        by_cases hlen : (picked ++ [t]).length = n
        · simp only [pickGo, hid, if_neg hmem, if_pos hlen]
          refine ⟨h1', h2', Finset.subset_insert tid ex,
            ⟨[t], rfl, (List.nil_sublist ts).cons₂ t, ?_⟩, fun _ => Nat.le_of_eq hlen, by simp⟩
          intro u hu i hui
          rw [List.mem_singleton.mp hu] at hui
          rw [hid] at hui
          exact Option.some.inj hui ▸ hmem
        · simp only [pickGo, hid, if_neg hmem, if_neg hlen]
          obtain ⟨m1, m2, m3, ⟨newly, hn1, hn2, hn3⟩, m5, m6⟩ :=
            ih (insert tid ex) (picked ++ [t]) h1' h2'
          refine ⟨m1, m2, Finset.Subset.trans (Finset.subset_insert tid ex) m3,
            ⟨t :: newly, ?_, hn2.cons₂ t, ?_⟩, ?_, ?_⟩
          · rw [hn1, List.append_assoc]
            rfl
          · intro u hu i hui
            rcases List.mem_cons.mp hu with hu | hu
            · rw [hu, hid] at hui
              exact Option.some.inj hui ▸ hmem
            · intro hiex
              exact hn3 u hu i hui (Finset.mem_insert_of_mem hiex)
          · intro hlt
            refine m5 ?_
            have : (picked ++ [t]).length = picked.length + 1 := by simp
            omega
          · calc picked.length ≤ (picked ++ [t]).length := by simp
              _ ≤ _ := m6

/-- C1 counterexample: with target count `need = 0` and one eligible
candidate, the filter returns 1 track, not at most 0 — the `len(picked) == n`
check sits after the append, so it never fires for `n = 0` and the filter
picks every eligible candidate. -/
theorem dedup_filter_need_zero_counterexample :
    ¬ ((pick_unique_tracks [trk1] ∅ 0).1.length ≤ 0) := by decide

/-- C1 (amended: for every positive target count `need`): the filter returns
at most `need` tracks; every returned track has a non-null id that was not
in the exclusion set at call time and is in the set when the filter returns;
no two returned tracks share an id; the returned sequence is a sublist of
the candidates (relative order preserved, null-id candidates skipped); and a
second call given the updated set never re-selects any returned tracks id. -/
theorem dedup_filter_contract (tracks : List Track) (ex : IdSet) (need : Nat)
    (hneed : 0 < need) :
    (pick_unique_tracks tracks ex need).1.length ≤ need ∧
    (∀ t ∈ (pick_unique_tracks tracks ex need).1,
       ∃ i, t.id = some i ∧ i ∉ ex ∧ i ∈ (pick_unique_tracks tracks ex need).2) ∧
    ((pick_unique_tracks tracks ex need).1.filterMap Track.id).Nodup ∧
    (pick_unique_tracks tracks ex need).1.Sublist tracks ∧
    (∀ tracks2 need2 t2,
       t2 ∈ (pick_unique_tracks tracks2 (pick_unique_tracks tracks ex need).2 need2).1 →
       ∀ t1 ∈ (pick_unique_tracks tracks ex need).1, t2.id ≠ t1.id) := by
  obtain ⟨m1, m2, _, ⟨newly, hn1, hn2, hn3⟩, m5, _⟩ :=
    pickGo_invariant need tracks ex [] (by simp) (by simp)
  rw [List.nil_append] at hn1
  refine ⟨m5 (by simpa using hneed), ?_, m2, hn1 ▸ hn2, ?_⟩
  · intro t ht
    obtain ⟨i, hi1, hi2⟩ := m1 t ht
    exact ⟨i, hi1, hn3 t (hn1 ▸ ht) i hi1, hi2⟩
  · intro tracks2 need2 t2 ht2 t1 ht1 heq
    obtain ⟨_, _, _, ⟨newly2, hq1, _, hq3⟩, _, _⟩ :=
      pickGo_invariant need2 tracks2 (pick_unique_tracks tracks ex need).2 [] (by simp) (by simp)
    rw [List.nil_append] at hq1
    obtain ⟨i1, hi1, hi2⟩ := m1 t1 ht1
    have hnot := hq3 t2 (hq1 ▸ ht2) i1 (heq.trans hi1)
    exact hnot hi2

/-- Witness for C1 (amended) at `need = 1` on two eligible candidates. -/
theorem dedup_filter_contract_w :
    (0 < 1) ∧
    ((pick_unique_tracks [trk1, trk2] ∅ 1).1.length ≤ 1 ∧
     (∀ t ∈ (pick_unique_tracks [trk1, trk2] ∅ 1).1,
        ∃ i, t.id = some i ∧ i ∉ (∅ : IdSet) ∧ i ∈ (pick_unique_tracks [trk1, trk2] ∅ 1).2) ∧
     ((pick_unique_tracks [trk1, trk2] ∅ 1).1.filterMap Track.id).Nodup ∧
     (pick_unique_tracks [trk1, trk2] ∅ 1).1.Sublist [trk1, trk2] ∧
     (∀ tracks2 need2 t2,
        t2 ∈ (pick_unique_tracks tracks2 (pick_unique_tracks [trk1, trk2] ∅ 1).2 need2).1 →
        ∀ t1 ∈ (pick_unique_tracks [trk1, trk2] ∅ 1).1, t2.id ≠ t1.id)) :=
  ⟨by decide, dedup_filter_contract [trk1, trk2] ∅ 1 (by decide)⟩

/-! ## Invariants of the pagination loop -/

theorem driverLoop_selected_facts (fetch : Nat → Option (List Track)) (n ps : Nat) :
    ∀ (budget : Nat) (sel : List Track) (ex : IdSet) (idx pf : Nat),
      (∀ t ∈ sel, ∃ i, t.id = some i ∧ i ∈ ex) →
      ((sel.filterMap Track.id).Nodup) →
      (∀ t ∈ (driverLoop fetch n ps budget sel ex idx pf).selected,
         ∃ i, t.id = some i ∧ i ∈ (driverLoop fetch n ps budget sel ex idx pf).excludeIds) ∧
      ((driverLoop fetch n ps budget sel ex idx pf).selected.filterMap Track.id).Nodup := by
  intro budget
  induction budget with
  | zero =>
    intro sel ex idx pf h1 h2
    exact ⟨h1, h2⟩
  | succ budget ih =>
    intro sel ex idx pf h1 h2
    cases hfe : fetch idx with
    | none =>
      simp only [driverLoop, hfe]
      exact ⟨h1, h2⟩
    | some tracks =>
      by_cases hemp : tracks = []
      · simp only [driverLoop, hfe, if_pos hemp]
        exact ⟨h1, h2⟩
      · obtain ⟨m1, m2, m3, ⟨newly, hn1, _, hn3⟩, _, _⟩ :=
          pickGo_invariant (n - sel.length) tracks ex [] (by simp) (by simp)
        rw [List.nil_append] at hn1
        have h1' : ∀ t ∈ sel ++ (pick_unique_tracks tracks ex (n - sel.length)).1,
            ∃ i, t.id = some i ∧ i ∈ (pick_unique_tracks tracks ex (n - sel.length)).2 := by
          intro t ht
          rcases List.mem_append.mp ht with ht | ht
          · obtain ⟨i, hi1, hi2⟩ := h1 t ht
            exact ⟨i, hi1, m3 hi2⟩
          · exact m1 t ht
        have h2' : ((sel ++ (pick_unique_tracks tracks ex (n - sel.length)).1).filterMap
            Track.id).Nodup := by
          rw [List.filterMap_append]
          refine List.Nodup.append h2 m2 ?_
          intro a ha hb
          obtain ⟨u, hu, hu2⟩ := List.mem_filterMap.mp ha
          obtain ⟨i, hi1, hi2⟩ := h1 u hu
          rw [hi1] at hu2
          obtain ⟨v, hv, hv2⟩ := List.mem_filterMap.mp hb
          have hnot := hn3 v (hn1 ▸ hv) a hv2
          exact hnot (Option.some.inj hu2 ▸ hi2)
        by_cases hstop : n ≤ (sel ++ (pick_unique_tracks tracks ex (n - sel.length)).1).length
        · simp only [driverLoop, hfe, if_neg hemp, if_pos hstop]
          exact ⟨h1', h2'⟩
        · simp only [driverLoop, hfe, if_neg hemp, if_neg hstop]
          exact ih _ _ _ _ h1' h2'

theorem driverLoop_offset_facts (fetch : Nat → Option (List Track)) (n ps : Nat) :
    ∀ (budget : Nat) (sel : List Track) (ex : IdSet) (idx pf : Nat),
      pf ≤ (driverLoop fetch n ps budget sel ex idx pf).pagesFetched ∧
      idx + ps * ((driverLoop fetch n ps budget sel ex idx pf).pagesFetched - pf) ≤
        (driverLoop fetch n ps budget sel ex idx pf).index + ps := by
  intro budget
  induction budget with
  | zero =>
    intro sel ex idx pf
    simp only [driverLoop]
    rw [Nat.sub_self, Nat.mul_zero]
    omega
  | succ budget ih =>
    intro sel ex idx pf
    cases hfe : fetch idx with
    | none =>
      simp only [driverLoop, hfe]
      rw [Nat.sub_self, Nat.mul_zero]
      omega
    | some tracks =>
      by_cases hemp : tracks = []
      · simp only [driverLoop, hfe, if_pos hemp]
        rw [Nat.add_sub_cancel_left, Nat.mul_one]
        omega
      · by_cases hstop : n ≤ (sel ++ (pick_unique_tracks tracks ex (n - sel.length)).1).length
        · simp only [driverLoop, hfe, if_neg hemp, if_pos hstop]
          rw [Nat.add_sub_cancel_left, Nat.mul_one]
          omega
        · simp only [driverLoop, hfe, if_neg hemp, if_neg hstop]
          obtain ⟨hpf, hidx⟩ := ih ((sel ++ (pick_unique_tracks tracks ex (n - sel.length)).1))
            (pick_unique_tracks tracks ex (n - sel.length)).2 (idx + ps) (pf + 1)
          constructor
          · omega
          · have hsplit : (driverLoop fetch n ps budget
                (sel ++ (pick_unique_tracks tracks ex (n - sel.length)).1)
                (pick_unique_tracks tracks ex (n - sel.length)).2 (idx + ps)
                (pf + 1)).pagesFetched - pf =
              ((driverLoop fetch n ps budget
                (sel ++ (pick_unique_tracks tracks ex (n - sel.length)).1)
                (pick_unique_tracks tracks ex (n - sel.length)).2 (idx + ps)
                (pf + 1)).pagesFetched - (pf + 1)) + 1 := by omega
            rw [hsplit, Nat.mul_succ]
            omega

theorem length_filterMap_id (l : List Track) (h : ∀ t ∈ l, ∃ i, t.id = some i) :
    (l.filterMap Track.id).length = l.length := by
  induction l with
  | nil => rfl
  | cons t ts ih =>
    obtain ⟨i, hi⟩ := h t (List.mem_cons_self t ts)
    rw [List.filterMap_cons, hi]
    simp only [List.length_cons]
    rw [ih (fun u hu => h u (List.mem_cons_of_mem t hu))]

theorem driverLoop_length_le (fetch : Nat → Option (List Track)) (n ps : Nat) :
    ∀ (budget : Nat) (sel : List Track) (ex : IdSet) (idx pf : Nat),
      sel.length < n →
      (driverLoop fetch n ps budget sel ex idx pf).selected.length ≤ n := by
  intro budget
  induction budget with
  | zero =>
    intro sel ex idx pf hsel
    exact Nat.le_of_lt hsel
  | succ budget ih =>
    intro sel ex idx pf hsel
    cases hfe : fetch idx with
    | none =>
      simp only [driverLoop, hfe]
      exact Nat.le_of_lt hsel
    | some tracks =>
      by_cases hemp : tracks = []
      · simp only [driverLoop, hfe, if_pos hemp]
        exact Nat.le_of_lt hsel
      · obtain ⟨_, _, _, _, m5, _⟩ :=
          pickGo_invariant (n - sel.length) tracks ex [] (by simp) (by simp)
        have hpick : (pick_unique_tracks tracks ex (n - sel.length)).1.length
            ≤ n - sel.length := m5 (by simpa using Nat.sub_pos_of_lt hsel)
        have hsum : (sel ++ (pick_unique_tracks tracks ex (n - sel.length)).1).length ≤ n := by
          rw [List.length_append]
          omega
        by_cases hstop : n ≤ (sel ++ (pick_unique_tracks tracks ex (n - sel.length)).1).length
        · simp only [driverLoop, hfe, if_neg hemp, if_pos hstop]
          exact hsum
        · simp only [driverLoop, hfe, if_neg hemp, if_neg hstop]
          exact ih _ _ _ _ (Nat.lt_of_not_le hstop)

/-- C3 counterexample: at desired count `n = 0`, with no transport failure
and a non-empty first page, the driver collects one unique track (the dedup
filter with `need = 0` picks every eligible candidate) and returns success —
but with MORE than `n` tracks (1 > 0), refuting the claim that the success
carries fewer than or equal to N tracks. -/
theorem driver_success_count_counterexample :
    (searchRun fetchOne [] 0 50 0 5).failed = false ∧
    search_music_api fetchOne "q" [] 0 50 0 5 =
      .success [trk1] [1] "q" 50 (format_tracks_response [trk1]) ∧
    ¬([trk1].length ≤ 0) :=
  ⟨rfl, rfl, by decide⟩

/-- C3 (amended: the success batch is bounded by N only for positive N):
when no transport failure occurs, the driver returns an error if and only if
the run collected zero unique tracks; whenever at least one was collected it
returns the success dictionary carrying exactly those tracks; and for every
positive desired count the collected batch has at most `n` tracks. -/
theorem driver_error_iff_and_count_bound
    (fetch : Nat → Option (List Track)) (q : String) (l : List Int) (n ps st mp : Nat)
    (hok : (searchRun fetch l n ps st mp).failed = false) :
    ((search_music_api fetch q l n ps st mp).isError = true ↔
      (searchRun fetch l n ps st mp).selected = []) ∧
    ((searchRun fetch l n ps st mp).selected ≠ [] →
      search_music_api fetch q l n ps st mp =
        .success (searchRun fetch l n ps st mp).selected
          ((searchRun fetch l n ps st mp).selected.filterMap Track.id) q
          ((searchRun fetch l n ps st mp).index + ps)
          (format_tracks_response (searchRun fetch l n ps st mp).selected)) ∧
    (0 < n → (searchRun fetch l n ps st mp).selected.length ≤ n) := by
  refine ⟨?_, ?_, ?_⟩
  · by_cases hsel : (searchRun fetch l n ps st mp).selected = []
    · simp [search_music_api, hok, hsel, SearchOutcome.isError]
    · simp [search_music_api, hok, hsel, SearchOutcome.isError]
  · intro hsel
    simp [search_music_api, hok, hsel]
  · intro hn
    exact driverLoop_length_le fetch n ps mp [] l.toFinset st 0 (by simpa using hn)

/-- Witness for C3 (amended) at a concrete upstream: one track on the first
page, desired count 5. -/
theorem driver_error_iff_and_count_bound_w :
    (((search_music_api fetchOne "q" [] 5 50 0 5).isError = true) ↔
      (searchRun fetchOne [] 5 50 0 5).selected = []) ∧
    ((searchRun fetchOne [] 5 50 0 5).selected ≠ [] →
      search_music_api fetchOne "q" [] 5 50 0 5 =
        .success (searchRun fetchOne [] 5 50 0 5).selected
          ((searchRun fetchOne [] 5 50 0 5).selected.filterMap Track.id) "q"
          ((searchRun fetchOne [] 5 50 0 5).index + 50)
          (format_tracks_response (searchRun fetchOne [] 5 50 0 5).selected)) ∧
    (0 < 5 → (searchRun fetchOne [] 5 50 0 5).selected.length ≤ 5) :=
  driver_error_iff_and_count_bound fetchOne "q" [] 5 50 0 5 rfl

/-- C9: every success dictionary of `search_music_api` has
`selected_track_ids` equal to the ids of the returned tracks in order, every
returned track has a non-null id, the ids are pairwise distinct, and the id
list has the same length as the track list. -/
theorem driver_success_ids_invariant
    (fetch : Nat → Option (List Track)) (q : String) (l : List Int)
    (n ps st mp : Nat) (tr : List Track) (ids : List Int) (q2 : String)
    (ni : Nat) (rt : String)
    (h : search_music_api fetch q l n ps st mp = .success tr ids q2 ni rt) :
    ids = tr.filterMap Track.id ∧ (∀ t ∈ tr, ∃ i, t.id = some i) ∧
    ids.Nodup ∧ ids.length = tr.length := by
  obtain ⟨m1, m2⟩ := driverLoop_selected_facts fetch n ps mp [] l.toFinset st 0
    (by simp) (by simp)
  simp only [search_music_api, searchRun] at h m1 m2
  split at h
  · exact absurd h (fun hc => SearchOutcome.noConfusion hc)
  · split at h
    · exact absurd h (fun hc => SearchOutcome.noConfusion hc)
    · injection h with h1 h2 h3 h4 h5
      have hall : ∀ t ∈ tr, ∃ i, t.id = some i := by
        intro t ht
        rw [← h1] at ht
        obtain ⟨i, hi1, _⟩ := m1 t ht
        exact ⟨i, hi1⟩
      refine ⟨?_, hall, ?_, ?_⟩
      · rw [← h2, ← h1]
      · rw [← h2]
        exact m2
      · rw [← h2, ← h1]
        exact length_filterMap_id _ (fun t ht => hall t (h1 ▸ ht))

/-- Witness for C9: concrete success run with one track. -/
theorem driver_success_ids_invariant_w :
    ([1] : List Int) = [trk1].filterMap Track.id ∧
    (∀ t ∈ [trk1], ∃ i, t.id = some i) ∧
    ([1] : List Int).Nodup ∧ ([1] : List Int).length = [trk1].length :=
  driver_success_ids_invariant fetchOne "q" [] 5 50 0 5 [trk1] [1] "q" 100
    (format_tracks_response [trk1]) rfl

/-- C4: whenever `search_music_api` returns a `next_index`, it is at least
`start_index + page_size * (number of pages actually fetched)`. -/
theorem driver_offset_monotone
    (fetch : Nat → Option (List Track)) (q : String) (l : List Int)
    (n ps st mp ni : Nat)
    (h : (search_music_api fetch q l n ps st mp).nextIndexOf = some ni) :
    st + ps * (searchRun fetch l n ps st mp).pagesFetched ≤ ni := by
  obtain ⟨_, hidx⟩ := driverLoop_offset_facts fetch n ps mp [] l.toFinset st 0
  simp only [search_music_api, searchRun] at h ⊢
  split at h
  · exact absurd h (fun hc => Option.noConfusion hc)
  · split at h
    · exact absurd h (fun hc => Option.noConfusion hc)
    · simp only [SearchOutcome.nextIndexOf, Option.some.injEq] at h
      rw [Nat.sub_zero] at hidx
      omega

/-- Witness for C4: run that fetches two pages and returns `next_index = 100`. -/
theorem driver_offset_monotone_w :
    (searchRun fetchOne [] 5 50 0 5).pagesFetched = 2 ∧
    0 + 50 * (searchRun fetchOne [] 5 50 0 5).pagesFetched ≤ 100 :=
  ⟨rfl, driver_offset_monotone fetchOne "q" [] 5 50 0 5 100 rfl⟩

/-! ## Artist resolution: C7 -/

/-- C7: with zero resolver candidates, `search_by_artist` returns an error
whose message is built from the original input string (no corrected name
exists); with at least one candidate carrying a name, the track search is
issued with the artist-field-biased query on the top top-match canonical name
and the context records that canonical name as its value, so a "more" call
replaying the context reuses the corrected name. -/
theorem artist_two_phase_resolution
    (fetch : Nat → Option (List Track)) (artist_name : String) (l : List Int)
    (n ps st : Nat) :
    ((search_by_artist (some []) fetch artist_name l n ps st).outcome
        = .error (artistNotFoundMessage artist_name)) ∧
    (artistNotFoundMessage artist_name =
      "Sorry, I couldn\x27t find an artist matching \x27" ++ artist_name ++ "\x27.") ∧
    (∀ nm rest,
      (search_by_artist (some (⟨some nm⟩ :: rest)) fetch artist_name l n ps st).outcome
        = search_music_api fetch ("artist:\"" ++ nm ++ "\"") l n ps st 5 ∧
      (search_by_artist (some (⟨some nm⟩ :: rest)) fetch artist_name l n ps st).context
        = some ("artist", nm)) :=
  ⟨rfl, rfl, fun _ _ => ⟨rfl, rfl⟩⟩

/-! ## Normalisation lemmas for the mood path -/

theorem char_toNat_ofNat_of_valid (m : Nat) (h : m.isValidChar) :
    (Char.ofNat m).toNat = m := by
  simp only [Char.ofNat, dif_pos h]
  rfl

theorem toLower_eq_of_upper (c : Char) (h : c.toNat ≥ 65 ∧ c.toNat ≤ 90) :
    Char.toLower c = Char.ofNat (c.toNat + 32) := by
  simp only [Char.toLower]
  rw [if_pos h]

theorem toLower_eq_self_of_not_upper (c : Char) (h : ¬(c.toNat ≥ 65 ∧ c.toNat ≤ 90)) :
    Char.toLower c = c := by
  simp only [Char.toLower]
  rw [if_neg h]

theorem toLower_idem (c : Char) : Char.toLower (Char.toLower c) = Char.toLower c := by
  by_cases h : c.toNat ≥ 65 ∧ c.toNat ≤ 90
  · rw [toLower_eq_of_upper c h]
    have hv : (Char.ofNat (c.toNat + 32)).toNat = c.toNat + 32 :=
      char_toNat_ofNat_of_valid _ (Or.inl (by omega))
    apply toLower_eq_self_of_not_upper
    rw [hv]
    omega
  · rw [toLower_eq_self_of_not_upper c h, toLower_eq_self_of_not_upper c h]

theorem isWhitespace_eq_false_of_range (c : Char) (h : 65 ≤ c.toNat) :
    c.isWhitespace = false := by
  simp only [Char.isWhitespace, Bool.or_eq_false_iff, decide_eq_false_iff_not]
  refine ⟨⟨⟨?_, ?_⟩, ?_⟩, ?_⟩ <;> intro he <;> rw [he] at h <;> exact absurd h (by decide)

theorem isWhitespace_toLower (c : Char) :
    (Char.toLower c).isWhitespace = c.isWhitespace := by
  by_cases h : c.toNat ≥ 65 ∧ c.toNat ≤ 90
  · rw [toLower_eq_of_upper c h]
    have hv : (Char.ofNat (c.toNat + 32)).toNat = c.toNat + 32 :=
      char_toNat_ofNat_of_valid _ (Or.inl (by omega))
    rw [isWhitespace_eq_false_of_range _ (by omega)]
    rw [isWhitespace_eq_false_of_range c (by omega)]
  · rw [toLower_eq_self_of_not_upper c h]

theorem dropWhile_map_toLower (l : List Char) :
    (l.map Char.toLower).dropWhile Char.isWhitespace
      = (l.dropWhile Char.isWhitespace).map Char.toLower := by
  have hfun : Char.isWhitespace ∘ Char.toLower = Char.isWhitespace :=
    funext fun c => isWhitespace_toLower c
  rw [List.dropWhile_map, hfun]

theorem pyStrip_map_toLower (l : List Char) :
    pyStrip (l.map Char.toLower) = (pyStrip l).map Char.toLower := by
  simp only [pyStrip]
  rw [dropWhile_map_toLower, ← List.map_reverse, dropWhile_map_toLower, ← List.map_reverse]

theorem pyStrip_eq_rdrop (m : List Char) :
    pyStrip m = List.rdropWhile Char.isWhitespace (m.dropWhile Char.isWhitespace) := rfl

theorem dropWhile_rdropWhile_stripped (x : List Char)
    (hx : x.dropWhile Char.isWhitespace = x) :
    (List.rdropWhile Char.isWhitespace x).dropWhile Char.isWhitespace
      = List.rdropWhile Char.isWhitespace x := by
  rcases hr : List.rdropWhile Char.isWhitespace x with _ | ⟨a, ys⟩
  · rfl
  · obtain ⟨t, ht⟩ := List.rdropWhile_prefix Char.isWhitespace x
    rw [hr] at ht
    cases hwa : Char.isWhitespace a with
    | false =>
      rw [List.dropWhile_cons, hwa]
      simp
    | true =>
      exfalso
      rw [← ht, List.cons_append, List.dropWhile_cons, hwa] at hx
      simp only [if_true] at hx
      have hle := (List.dropWhile_sublist (l := ys ++ t) Char.isWhitespace).length_le
      rw [hx] at hle
      simp at hle

theorem pyStrip_idem (l : List Char) : pyStrip (pyStrip l) = pyStrip l := by
  rw [pyStrip_eq_rdrop (pyStrip l), pyStrip_eq_rdrop l]
  rw [dropWhile_rdropWhile_stripped _ (List.dropWhile_idempotent _ _)]
  exact List.rdropWhile_idempotent _ _

theorem map_toLower_idem (l : List Char) :
    (l.map Char.toLower).map Char.toLower = l.map Char.toLower := by
  rw [List.map_map]
  congr 1
  funext c
  exact toLower_idem c

theorem stripLower_idem (s : String) : stripLower (stripLower s) = stripLower s := by
  simp only [stripLower]
  congr 1
  have htl : (String.mk ((pyStrip s.toList).map Char.toLower)).toList
      = (pyStrip s.toList).map Char.toLower := rfl
  rw [htl, pyStrip_map_toLower, pyStrip_idem, map_toLower_idem]

/-- C6: the fallback tool normalises the mood once (trim + lowercase); on a
mapping hit it returns the genre result exactly when that result is a
success with a non-empty track list (so the mood path is not run), and in
every other case — no mapping, genre error, or genre success with no tracks —
it returns the plain mood search on the normalised mood, whose context is
tagged `mood` with the normalised mood as value (normalisation is
idempotent, so the inner re-normalisation changes nothing); genre results
are tagged `genre`. -/
theorem mood_fallback_policy (fetch : Nat → Option (List Track)) (mood : String)
    (l : List Int) (n ps st : Nat) :
    (∀ g, moodToGenre (stripLower mood) = some g →
      search_by_mood_with_genre_fallback fetch mood l n ps st =
        (if (search_by_genre fetch g l n ps st).outcome.successWithTracks
         then search_by_genre fetch g l n ps st
         else search_by_mood fetch (stripLower mood) l n ps st)) ∧
    (moodToGenre (stripLower mood) = none →
      search_by_mood_with_genre_fallback fetch mood l n ps st =
        search_by_mood fetch (stripLower mood) l n ps st) ∧
    ((search_by_mood fetch (stripLower mood) l n ps st).context
        = some ("mood", stripLower mood)) ∧
    (∀ g, (search_by_genre fetch g l n ps st).context = some ("genre", g)) := by
  refine ⟨?_, ?_, ?_, fun g => rfl⟩
  · intro g hg
    simp only [search_by_mood_with_genre_fallback, hg]
  · intro hg
    simp only [search_by_mood_with_genre_fallback, hg]
  · simp only [search_by_mood, stripLower_idem]

/-- Witness for C6: the mood "  Happy " normalises to "happy", which maps to
genre "pop"; the mood "curious" has no mapping. -/
theorem mood_fallback_policy_w :
    (search_by_mood_with_genre_fallback fetchOne "  Happy " [] 5 50 0 =
      (if (search_by_genre fetchOne "pop" [] 5 50 0).outcome.successWithTracks
       then search_by_genre fetchOne "pop" [] 5 50 0
       else search_by_mood fetchOne (stripLower "  Happy ") [] 5 50 0)) ∧
    (search_by_mood_with_genre_fallback fetchOne "curious" [] 5 50 0 =
      search_by_mood fetchOne (stripLower "curious") [] 5 50 0) :=
  ⟨(mood_fallback_policy fetchOne "  Happy " [] 5 50 0).1 "pop" (by decide),
   (mood_fallback_policy fetchOne "curious" [] 5 50 0).2.1 (by decide)⟩

end MusicAgent
